import Mathlib

/-!
Shallow embedding of the Auto-Committer core (src/auto_committer.py) and the
plugin hook contract (src/plugins/base.py), with theorems settling the
specification claims about it.

Modelling conventions:
* file contents are explicit data: a `FileEntry` holds the bytes seen by the
  binary probe (`open(.., 'rb')`; `none` = open raised) and the decoded text
  seen by the content scan (`open(.., 'r', errors='ignore')`; `none` = open
  raised, caught by the scanner's per-file `except`);
* a compiled regular expression is embedded as its `findall` behaviour, a
  function from the scanned text to the list of matched strings;
* times of day are natural numbers (e.g. minutes since midnight) with the
  pointwise order, matching `datetime.time`'s total order; `time.fromisoformat`
  is library code and is embedded as an abstract `parse : String → Option Nat`
  (`none` = `ValueError`, caught by `_is_quiet_hours`);
* the git layer is an environment of operation outcomes, and `attempt_commit`
  returns, next to its boolean result, the trace of mutating git operations it
  invoked and the log events it emitted (logging internal to `_should_commit`
  and to the scanner is not traced; only `attempt_commit`'s own logger calls
  are).
-/

namespace AutoCommitter

/-- One entry of `SecurityScanner.scan_for_secrets`'s violation list
(a Python dict with keys file/type/severity and, for secrets,
pattern/match). -/
structure Violation where
  file : String
  vtype : String
  severity : String
  patternName : Option String
  matchText : Option String
deriving DecidableEq, Repr

/-- What the scanner can observe about one path: the raw bytes the binary
probe reads (`none` when `open(.., 'rb')` raises, which `_is_binary_file`
turns into `True`) and the decoded text of the content scan (`none` when the
text `open` raises; that exception is caught by the scanner's per-file
`except` and the file is skipped). -/
structure FileEntry where
  bytes : Option (List Nat)
  text : Option String

/-- A compiled secret pattern: its source text and its `findall` behaviour
on a decoded file content. -/
structure SecretPattern where
  source : String
  findall : String → List String

/-- `SecurityScanner.__init__`: compiled `secret_patterns` and the
`blocked_extensions` list from the security config. -/
structure Scanner where
  secretPatterns : List SecretPattern
  blockedExtensions : List String

/-- Python's `str.endswith`, on the underlying character lists (kept
kernel-reducible so concrete instances evaluate). -/
def strEndsWith (s pat : String) : Bool :=
  List.isSuffixOf pat.data s.data

/-- Python's `s[:n]` on a string: the first `n` characters. -/
def strTake (s : String) (n : Nat) : String :=
  String.mk (s.data.take n)

/-- Line 61 of src/auto_committer.py:
`match[:50] + '...' if len(match) > 50 else match` (Python `len` counts
characters, as `String.length` does). -/
def truncMatch (m : String) : String :=
  if m.length > 50 then strTake m 50 ++ "..." else m

/-- `SecurityScanner._is_binary_file`: read up to 1024 bytes and look for a
NUL byte; an unreadable file counts as binary. -/
def is_binary_file (e : FileEntry) : Bool :=
  match e.bytes with
  | none => true
  | some bs => (bs.take 1024).contains 0

/-- The body of `SecurityScanner.scan_for_secrets`'s per-file loop: a blocked
extension yields one high-severity violation and skips the rest (`continue`);
binary files are skipped; otherwise every `findall` match of every pattern
yields a medium-severity violation carrying the truncated match. -/
def scanOneFile (sc : Scanner) (fs : String → FileEntry) (p : String) :
    List Violation :=
  if sc.blockedExtensions.any (fun ext => strEndsWith p ext) then
    [{ file := p, vtype := "blocked_extension", severity := "high",
       patternName := none, matchText := none }]
  else if is_binary_file (fs p) then []
  else
    match (fs p).text with
    | none => []
    | some content =>
        sc.secretPatterns.flatMap fun pat =>
          (pat.findall content).map fun m =>
            { file := p, vtype := "potential_secret", severity := "medium",
              patternName := some pat.source, matchText := some (truncMatch m) }

/-- `SecurityScanner.scan_for_secrets`: violations accumulated over the file
list in order. -/
def scan_for_secrets (sc : Scanner) (fs : String → FileEntry)
    (filePaths : List String) : List Violation :=
  filePaths.flatMap (scanOneFile sc fs)

/-- `SecurityScanner.is_safe_to_commit`: safe iff no high-severity violation;
also returns the full violation list. -/
def is_safe_to_commit (sc : Scanner) (fs : String → FileEntry)
    (filePaths : List String) : Bool × List Violation :=
  let violations := scan_for_secrets sc fs filePaths
  ((violations.filter (fun v => v.severity == "high")).length == 0, violations)

/-- Split a character list at `/` separators (kernel-reducible counterpart
of splitting a path string on `/`). -/
def splitSlash : List Char → List (List Char)
  | [] => [[]]
  | c :: rest =>
    let r := splitSlash rest
    if c = '/' then [] :: r
    else
      match r with
      | [] => [[c]]
      | h :: t => (c :: h) :: t

/-- `pathlib.Path(p).name`: the last non-empty `/`-separated component. -/
def pathName (p : String) : String :=
  match ((splitSlash p.data).filter (fun cs => cs ≠ [])).getLast? with
  | some cs => String.mk cs
  | none => ""

/-- `CommitMessageGenerator._generate_template_message` (lines 145-152):
one file gives `"auto: update <basename>"`, any other count gives
`"auto: update <N> files 🚀"`. -/
def generate_template_message (changedFiles : List String) : String :=
  match changedFiles with
  | [f] => "auto: update " ++ pathName f
  | _ => "auto: update " ++ toString changedFiles.length ++ " files 🚀"

/-- `CommitMessageGenerator` state: whether the AI backend ended up enabled
after `__init__`, and the outcome of `_generate_ai_message` on a given diff
(`none` = the call failed and returned `None`). -/
structure MsgGen where
  aiEnabled : Bool
  aiMessage : String → Option String

/-- `CommitMessageGenerator.generate_commit_message` (lines 105-112): use the
AI message when the backend is enabled, the diff is non-empty and the call
succeeds; otherwise fall back to the template. -/
def generate_commit_message (g : MsgGen) (changedFiles : List String)
    (diffContent : String) : String :=
  if g.aiEnabled && !(diffContent == "") then
    match g.aiMessage diffContent with
    | some m => m
    | none => generate_template_message changedFiles
  else generate_template_message changedFiles

/-- The `scheduling.quiet_hours` mapping as loaded from YAML: possibly
missing `start`/`end` keys (a missing key raises `KeyError`, caught by
`_is_quiet_hours`'s bare `except`). `end` is a Lean keyword, so the field is
named `endStr`. -/
structure QuietRaw where
  startStr : Option String
  endStr : Option String

/-- `EnhancedAutoCommitter._is_quiet_hours` (lines 265-281), with the current
time and the `time.fromisoformat` parser passed explicitly. A missing
`quiet_hours` mapping, a missing `start`/`end` key, or a parse failure all
fall into the `except: return False` path. Evaluation order follows the
source: `start` is looked up and parsed before `end`. -/
def is_quiet_hours (parse : String → Option Nat) (quietConfig : Option QuietRaw)
    (currentTime : Nat) : Bool :=
  match quietConfig with
  | none => false
  | some qc =>
    match qc.startStr with
    | none => false
    | some s =>
      match parse s with
      | none => false
      | some quietStart =>
        match qc.endStr with
        | none => false
        | some e =>
          match parse e with
          | none => false
          | some quietEnd =>
            if quietStart ≤ quietEnd then
              decide (quietStart ≤ currentTime ∧ currentTime ≤ quietEnd)
            else
              decide (currentTime ≥ quietStart ∨ currentTime ≤ quietEnd)

/-- The `commit_behavior` mapping: `min_files_for_commit` and
`max_files_per_commit`, each possibly absent (defaults 1 and 50 are applied
at the `.get` call sites in `_should_commit`). -/
structure CommitBehavior where
  minFilesForCommit : Option Nat
  maxFilesPerCommit : Option Nat

/-- The configuration slice `attempt_commit` and its gates read:
`scheduling.quiet_hours`, `commit_behavior`, and `security.scan_for_secrets`
(default `True` at the call site). -/
structure Config where
  quietHours : Option QuietRaw
  commitBehavior : CommitBehavior
  scanForSecrets : Option Bool

/-- `EnhancedAutoCommitter._should_commit` (lines 296-318): reject during
quiet hours, then reject when the changed-file count is below
`min_files_for_commit` (default 1) or above `max_files_per_commit`
(default 50); otherwise accept. Every rejection is a `return False`
(a policy skip), never an exception. -/
def should_commit (parse : String → Option Nat) (cfg : Config)
    (currentTime : Nat) (changedFiles : List String) : Bool :=
  if is_quiet_hours parse cfg.quietHours currentTime then false
  else
    let fileCount := changedFiles.length
    let minFiles := cfg.commitBehavior.minFilesForCommit.getD 1
    let maxFiles := cfg.commitBehavior.maxFilesPerCommit.getD 50
    if fileCount < minFiles then false
    else if fileCount > maxFiles then false
    else true

/-- Outcome of one git library call: success, a `GitCommandError` (caught by
the dedicated handlers in `attempt_commit`), or any other exception (caught
only by the outermost `except Exception`). -/
inductive GitOutcome where
  | ok
  | gitError
  | exn
deriving DecidableEq, Repr

/-- A mutating git operation invoked by `attempt_commit`, in invocation
order: `repo.git.add(all=True)`, `repo.index.commit(message)`,
`origin.pull(branch)`, `origin.push(branch)`. -/
inductive GitEffect where
  | stage
  | commit (message : String)
  | pull
  | push
deriving DecidableEq, Repr

/-- A logger call made directly by `attempt_commit` (logging done inside
`_should_commit` and the scanner is not traced here). -/
inductive LogMsg where
  | noChanges
  | securityViolations (n : Nat)
  | securityViolationDetail (file : String) (vtype : String)
  | securityWarnings (n : Nat)
  | securityWarningDetail (file : String) (vtype : String)
  | staged (n : Nat)
  | createdCommit (message : String)
  | pulledOk
  | pullFailedWarning
  | pushedOk
  | pushFailed
  | commitAttemptFailed
deriving DecidableEq, Repr

/-- The environment one call of `attempt_commit` runs in: the repository
state it observes and the outcome of each external operation it may invoke.
`remoteLookup` is `repo.remote(name=...)` succeeding (its failure mode,
`ValueError`, reaches the outermost handler). -/
structure RepoEnv where
  isDirty : Bool
  changedFiles : List String
  fs : String → FileEntry
  currentTime : Nat
  stagedDiff : Option String
  stageOk : Bool
  commitOk : Bool
  remoteLookup : Bool
  pullResult : GitOutcome
  pushResult : GitOutcome

/-- Result of one `attempt_commit` call: the returned boolean, the trace of
mutating git operations invoked, and the log events emitted. -/
structure AttemptOut where
  result : Bool
  effects : List GitEffect
  logs : List LogMsg
deriving DecidableEq, Repr

/-- Lines 350-391 of `attempt_commit`: stage, build the commit message
(falling back to the emoji template if `git diff --staged --stat` raises),
commit, then pull (a `GitCommandError` from the pull is logged as a warning
and ignored; any other pull exception reaches the outermost handler) and
push (success returns `True`; a `GitCommandError` or any other exception
returns `False`). `logs0` holds the log events already emitted by the
security block. -/
def stageCommitPush (g : MsgGen) (env : RepoEnv) (logs0 : List LogMsg) :
    AttemptOut :=
  if !env.stageOk then ⟨false, [.stage], logs0 ++ [.commitAttemptFailed]⟩
  else
    let logs1 := logs0 ++ [LogMsg.staged env.changedFiles.length]
    let commitMessage :=
      match env.stagedDiff with
      | some diffContent => generate_commit_message g env.changedFiles diffContent
      | none => "auto: update " ++ toString env.changedFiles.length ++ " files 🚀"
    if !env.commitOk then
      ⟨false, [.stage, .commit commitMessage], logs1 ++ [.commitAttemptFailed]⟩
    else
      let logs2 := logs1 ++ [LogMsg.createdCommit commitMessage]
      let effs := [GitEffect.stage, GitEffect.commit commitMessage]
      if !env.remoteLookup then ⟨false, effs, logs2 ++ [.commitAttemptFailed]⟩
      else
        match env.pullResult with
        | .exn => ⟨false, effs ++ [.pull], logs2 ++ [.commitAttemptFailed]⟩
        | .ok =>
          match env.pushResult with
          | .ok => ⟨true, effs ++ [.pull, .push], logs2 ++ [.pulledOk, .pushedOk]⟩
          | .gitError =>
              ⟨false, effs ++ [.pull, .push], logs2 ++ [.pulledOk, .pushFailed]⟩
          | .exn =>
              ⟨false, effs ++ [.pull, .push],
               logs2 ++ [.pulledOk, .commitAttemptFailed]⟩
        | .gitError =>
          match env.pushResult with
          | .ok =>
              ⟨true, effs ++ [.pull, .push],
               logs2 ++ [.pullFailedWarning, .pushedOk]⟩
          | .gitError =>
              ⟨false, effs ++ [.pull, .push],
               logs2 ++ [.pullFailedWarning, .pushFailed]⟩
          | .exn =>
              ⟨false, effs ++ [.pull, .push],
               logs2 ++ [.pullFailedWarning, .commitAttemptFailed]⟩

/-- `EnhancedAutoCommitter.attempt_commit` (lines 320-391): no-op when the
repository is clean; apply the `_should_commit` gates; when
`security.scan_for_secrets` (default `True`) is set, run the scanner and
return `False` before any git mutation if it reports the files unsafe;
otherwise stage, commit, pull and push via `stageCommitPush`. -/
def attempt_commit (cfg : Config) (sc : Scanner) (g : MsgGen)
    (parse : String → Option Nat) (env : RepoEnv) : AttemptOut :=
  if !env.isDirty then ⟨false, [], [.noChanges]⟩
  else if !(should_commit parse cfg env.currentTime env.changedFiles) then
    ⟨false, [], []⟩
  else if cfg.scanForSecrets.getD true then
    let scanRes := is_safe_to_commit sc env.fs env.changedFiles
    if !scanRes.1 then
      ⟨false, [],
       LogMsg.securityViolations scanRes.2.length ::
         scanRes.2.map (fun v => LogMsg.securityViolationDetail v.file v.vtype)⟩
    else
      let warnLogs : List LogMsg :=
        if scanRes.2.isEmpty then []
        else
          LogMsg.securityWarnings scanRes.2.length ::
            scanRes.2.map (fun v => LogMsg.securityWarningDetail v.file v.vtype)
      stageCommitPush g env warnLogs
  else stageCommitPush g env []

/-- Outcome of constructing `EnhancedAutoCommitter(args.config)` in
`__main__`: success, an `AutoCommitterError` (configuration error), or any
other exception. -/
inductive InitOutcome where
  | ok
  | configError
  | unexpectedError
deriving DecidableEq, Repr

/-- The `--once` branch of `__main__` (lines 442-453): construct the
committer, run `attempt_commit` exactly once and exit with code 0 when it
returned `True`, 1 when it returned `False`; an `AutoCommitterError` or any
other startup exception exits with code 1 before any attempt. Returns
(number of `attempt_commit` calls, exit code). -/
def run_once (init : InitOutcome) (cfg : Config) (sc : Scanner) (g : MsgGen)
    (parse : String → Option Nat) (env : RepoEnv) : Nat × Nat :=
  match init with
  | .ok => (1, if (attempt_commit cfg sc g parse env).result then 0 else 1)
  | .configError => (0, 1)
  | .unexpectedError => (0, 1)

/-- Modelled from the spec: the commit record seen by the post-commit hook
chain (spec §3/§4.5) — the hook pipeline itself is absent from src/
(src/plugins/base.py only declares the four no-op hooks and nothing under
src/ invokes them), so only the message field the hooks may rewrite is
modelled. -/
structure CommitRecord where
  message : String
deriving DecidableEq, Repr

/-- Modelled from the spec: the outcome of one post_commit hook invocation
(spec §4.5) — the plugin either amends the current commit, yielding the
updated record, or raises an exception. -/
inductive HookOutcome where
  | amended (c : CommitRecord)
  | raised (e : String)

/-- Modelled from the spec: a plugin as seen by the hook pipeline, with the
full capability set of spec §4.5/§6 {pre_commit, post_commit, on_push,
on_error}. Each hook is embedded as its behaviour on the argument the
pipeline passes it (the repository handle carries no information the model
needs): `pre_commit(repo, changed_files)`, `on_push(repo, commit)` and
`on_error(error)` either return normally (`.ok ()`) or raise (`.error e`);
`post_commit(repo, commit)` either amends the current commit or raises. -/
structure Plugin where
  preCommitHook : List String → Except String Unit
  postCommitHook : CommitRecord → HookOutcome
  onPushHook : CommitRecord → Except String Unit
  onErrorHook : String → Except String Unit

/-- Modelled from the spec: one individually wrapped post_commit invocation
(spec §4.5) — an amend replaces the current commit record, a raised
exception is caught and logged, leaving the current commit unchanged for
the next plugin. -/
def applyPostCommitHook (pl : Plugin) (cur : CommitRecord) : CommitRecord :=
  match pl.postCommitHook cur with
  | .amended c2 => c2
  | .raised _ => cur

/-- Modelled from the spec: the post_commit stage of the HookPipeline (spec
§4.5) — plugins are invoked sequentially in configured list order, each
invocation wrapped individually by `applyPostCommitHook`; by construction
no plugin exception propagates out of the pipeline. -/
def runPostCommitChain (plugins : List Plugin) (c : CommitRecord) :
    CommitRecord :=
  plugins.foldl (fun cur pl => applyPostCommitHook pl cur) c

/-- Modelled from the spec: the pre_commit stage of the HookPipeline (spec
§4.5) — every plugin's pre_commit hook is invoked in order; an exception is
caught and logged and does not block the attempt (the offending plugin's
contribution is simply absent). Returns the sequence of caught exceptions;
nothing else escapes the stage. -/
def runPreCommitHooks (plugins : List Plugin) (changedFiles : List String) :
    List String :=
  plugins.flatMap fun pl =>
    match pl.preCommitHook changedFiles with
    | .ok _ => []
    | .error err => [err]

/-- Modelled from the spec: the on_push stage of the HookPipeline (spec
§4.5) — fire-and-forget notifications invoked once per plugin after a
successful push; failures are logged only. Returns the sequence of caught
exceptions; nothing else escapes the stage. -/
def runOnPushHooks (plugins : List Plugin) (c : CommitRecord) :
    List String :=
  plugins.flatMap fun pl =>
    match pl.onPushHook c with
    | .ok _ => []
    | .error err => [err]

/-- Modelled from the spec: the on_error stage of the HookPipeline (spec
§4.5) — invoked when a stage of the attempt fails terminally; failures
inside this hook are swallowed. Returns the sequence of caught exceptions;
nothing else escapes the stage. -/
def runOnErrorHooks (plugins : List Plugin) (msg : String) : List String :=
  plugins.flatMap fun pl =>
    match pl.onErrorHook msg with
    | .ok _ => []
    | .error err => [err]

/-! Concrete fixtures used by the witness and counterexample theorems. -/

/-- A time parser that fails on every string. -/
def parse0 : String → Option Nat := fun _ => none

/-- A time parser for the two clock strings of the quiet-hours examples,
in minutes since midnight. -/
def parseClock : String → Option Nat := fun s =>
  if s = "22:00" then some 1320
  else if s = "06:00" then some 360
  else none

/-- A filesystem where every path holds the two ASCII bytes of "hi". -/
def fs0 : String → FileEntry := fun _ =>
  { bytes := some [104, 105], text := some "hi" }

/-- A scanner with no secret patterns and no blocked extensions. -/
def sc0 : Scanner := { secretPatterns := [], blockedExtensions := [] }

/-- A scanner blocking the ".key" extension. -/
def scKey : Scanner := { secretPatterns := [], blockedExtensions := [".key"] }

/-- A 60-character candidate secret. -/
def longSecret : String := String.mk (List.replicate 60 'a')

/-- A pattern matching `longSecret` in any content. -/
def patLong : SecretPattern := { source := "token", findall := fun _ => [longSecret] }

/-- A scanner holding only `patLong`. -/
def scLong : Scanner := { secretPatterns := [patLong], blockedExtensions := [] }

/-- A pattern matching the short secret "hunter2" in any content. -/
def patPw : SecretPattern := { source := "pw", findall := fun _ => ["hunter2"] }

/-- A scanner holding only `patPw`. -/
def scPw : Scanner := { secretPatterns := [patPw], blockedExtensions := [] }

/-- A message generator with the AI backend disabled. -/
def g0 : MsgGen := { aiEnabled := false, aiMessage := fun _ => none }

/-- A configuration with everything at its defaults. -/
def cfg0 : Config :=
  { quietHours := none, commitBehavior := ⟨none, none⟩, scanForSecrets := none }

/-- A configuration with the security scan turned off and no quiet hours. -/
def cfgNoScan : Config :=
  { quietHours := none, commitBehavior := ⟨none, none⟩,
    scanForSecrets := some false }

/-- A configuration with the quiet window 22:00-06:00 (spans midnight) and
the security scan turned off. -/
def cfgQuiet : Config :=
  { quietHours := some { startStr := some "22:00", endStr := some "06:00" },
    commitBehavior := ⟨none, none⟩, scanForSecrets := some false }

/-- A dirty single-file repository where every git operation succeeds. -/
def envBase : RepoEnv :=
  { isDirty := true, changedFiles := ["a.py"], fs := fs0, currentTime := 720,
    stagedDiff := some "stat", stageOk := true, commitOk := true,
    remoteLookup := true, pullResult := .ok, pushResult := .ok }

/-- Like `envBase` but the push raises a GitCommandError. -/
def envPushFail : RepoEnv :=
  { isDirty := true, changedFiles := ["a.py"], fs := fs0, currentTime := 720,
    stagedDiff := some "stat", stageOk := true, commitOk := true,
    remoteLookup := true, pullResult := .ok, pushResult := .gitError }

/-- Like `envBase` but the pull raises a GitCommandError. -/
def envPullFail : RepoEnv :=
  { isDirty := true, changedFiles := ["a.py"], fs := fs0, currentTime := 720,
    stagedDiff := some "stat", stageOk := true, commitOk := true,
    remoteLookup := true, pullResult := .gitError, pushResult := .ok }

/-- A dirty repository whose single changed file has the blocked ".key"
extension. -/
def envKey : RepoEnv :=
  { isDirty := true, changedFiles := ["id.key"], fs := fs0, currentTime := 720,
    stagedDiff := some "stat", stageOk := true, commitOk := true,
    remoteLookup := true, pullResult := .ok, pushResult := .ok }

/-- A plugin that raises on every call of every hook. -/
def pBad0 : Plugin :=
  { preCommitHook := fun _ => .error "boom",
    postCommitHook := fun _ => .raised "boom",
    onPushHook := fun _ => .error "boom",
    onErrorHook := fun _ => .error "boom" }

/-- A well-behaved plugin appending a karma section to the message and
amending; its other hooks return normally. -/
def pGood0 : Plugin :=
  { preCommitHook := fun _ => .ok (),
    postCommitHook := fun c => .amended { message := c.message ++ " [karma]" },
    onPushHook := fun _ => .ok (),
    onErrorHook := fun _ => .ok () }

/-- A well-behaved plugin whose hooks all return normally and whose
post_commit amend leaves the message unchanged. -/
def pNoop : Plugin :=
  { preCommitHook := fun _ => .ok (),
    postCommitHook := fun c => .amended c,
    onPushHook := fun _ => .ok (),
    onErrorHook := fun _ => .ok () }

/-! Helper lemmas shared by the claim theorems. -/

theorem mem_scan_of_mem_scanOneFile {sc : Scanner} {fs : String → FileEntry}
    {paths : List String} {p : String} {v : Violation}
    (hp : p ∈ paths) (hv : v ∈ scanOneFile sc fs p) :
    v ∈ scan_for_secrets sc fs paths := by
  simp only [scan_for_secrets, List.mem_flatMap]
  exact ⟨p, hp, hv⟩

theorem isSafe_fst_false_of_high {sc : Scanner} {fs : String → FileEntry}
    {paths : List String} {v : Violation}
    (hv : v ∈ scan_for_secrets sc fs paths) (hsev : v.severity = "high") :
    (is_safe_to_commit sc fs paths).1 = false := by
  have hmem : v ∈ (scan_for_secrets sc fs paths).filter
      (fun v => v.severity == "high") :=
    List.mem_filter.mpr ⟨hv, by simp [hsev]⟩
  have hne : ((scan_for_secrets sc fs paths).filter
      (fun v => v.severity == "high")).length ≠ 0 := by
    intro h0
    rw [List.length_eq_zero] at h0
    rw [h0] at hmem
    exact absurd hmem (List.not_mem_nil v)
  simpa [is_safe_to_commit] using hne

/-- C2: a path ending in a blocked extension always yields exactly one
violation — of kind blocked_extension with severity high — whatever the
file's bytes or text are (no content scan happens for it), and any file
list containing such a path is reported unsafe by `is_safe_to_commit`. -/
theorem blocked_extension_high_and_unsafe (sc : Scanner)
    (fs : String → FileEntry) (paths : List String) (p ext : String)
    (hext : ext ∈ sc.blockedExtensions) (hsuf : strEndsWith p ext = true)
    (hp : p ∈ paths) :
    scanOneFile sc fs p =
      [{ file := p, vtype := "blocked_extension", severity := "high",
         patternName := none, matchText := none }] ∧
    (∃ v ∈ scan_for_secrets sc fs paths,
        v.file = p ∧ v.severity = "high") ∧
    (is_safe_to_commit sc fs paths).1 = false := by
  have hguard : sc.blockedExtensions.any (fun ext => strEndsWith p ext) = true :=
    List.any_eq_true.mpr ⟨ext, hext, hsuf⟩
  have hone : scanOneFile sc fs p =
      [{ file := p, vtype := "blocked_extension", severity := "high",
         patternName := none, matchText := none }] := by
    simp [scanOneFile, hguard]
  have hvmem : ({ file := p, vtype := "blocked_extension",
                  severity := "high",
                  patternName := none, matchText := none } : Violation)
      ∈ scan_for_secrets sc fs paths :=
    mem_scan_of_mem_scanOneFile hp (by rw [hone]; exact List.mem_singleton.mpr rfl)
  exact ⟨hone, ⟨_, hvmem, rfl, rfl⟩, isSafe_fst_false_of_high hvmem rfl⟩

/-- C2 witness: the concrete path "id.key" against the `.key`-blocking
scanner, inside the list ["id.key"]. -/
theorem blocked_extension_high_and_unsafe_witness :
    scanOneFile scKey fs0 "id.key" =
      [{ file := "id.key", vtype := "blocked_extension", severity := "high",
         patternName := none, matchText := none }] ∧
    (is_safe_to_commit scKey fs0 ["id.key"]).1 = false := by
  have h := blocked_extension_high_and_unsafe scKey fs0 ["id.key"] "id.key"
    ".key" (by decide) (by decide) (by decide)
  exact ⟨h.1, h.2.2⟩

/-- C1: whenever the security scan is enabled
(`security.scan_for_secrets` absent or `True`) and the scanner reports a
high-severity violation among the changed files, `attempt_commit` returns
`False` with an empty git-operation trace: no stage, commit, pull or push is
invoked, so the working tree and index are untouched by the attempt. -/
theorem scan_veto_before_any_git_op (cfg : Config) (sc : Scanner) (g : MsgGen)
    (parse : String → Option Nat) (env : RepoEnv) (v : Violation)
    (hscan : cfg.scanForSecrets.getD true = true)
    (hv : v ∈ scan_for_secrets sc env.fs env.changedFiles)
    (hsev : v.severity = "high") :
    (attempt_commit cfg sc g parse env).result = false ∧
    (attempt_commit cfg sc g parse env).effects = [] := by
  have hsafe : (is_safe_to_commit sc env.fs env.changedFiles).1 = false :=
    isSafe_fst_false_of_high hv hsev
  unfold attempt_commit
  cases hd : env.isDirty
  · simp
  · cases hsc : should_commit parse cfg env.currentTime env.changedFiles
    · simp
    · simp [hscan, hsafe]

/-- C1 witness: the dirty repository whose only changed file is "id.key",
scanned by the `.key`-blocking scanner with the scan left at its default. -/
theorem scan_veto_before_any_git_op_witness :
    (attempt_commit cfg0 scKey g0 parse0 envKey).result = false ∧
    (attempt_commit cfg0 scKey g0 parse0 envKey).effects = [] :=
  scan_veto_before_any_git_op cfg0 scKey g0 parse0 envKey
    { file := "id.key", vtype := "blocked_extension", severity := "high",
      patternName := none, matchText := none }
    (by decide) (by decide) (by decide)

/-- C3: with a configured, parseable quiet window, the gate rejects exactly
the times inside it — `start ≤ end` means `start ≤ t ≤ end`, `start > end`
(the window spans midnight) means `t ≥ start ∨ t ≤ end` — so
`_should_commit` is `False` at every time inside the window and, when the
file-count gates permit, `True` at every time outside it. -/
theorem quiet_hours_window_gate (parse : String → Option Nat) (cfg : Config)
    (currentTime : Nat) (s e : String) (qs qe : Nat) (files : List String)
    (hq : cfg.quietHours = some { startStr := some s, endStr := some e })
    (hps : parse s = some qs) (hpe : parse e = some qe) :
    (qs ≤ qe →
      (is_quiet_hours parse cfg.quietHours currentTime = true ↔
        (qs ≤ currentTime ∧ currentTime ≤ qe))) ∧
    (qe < qs →
      (is_quiet_hours parse cfg.quietHours currentTime = true ↔
        (currentTime ≥ qs ∨ currentTime ≤ qe))) ∧
    (is_quiet_hours parse cfg.quietHours currentTime = true →
      should_commit parse cfg currentTime files = false) ∧
    (is_quiet_hours parse cfg.quietHours currentTime = false →
      cfg.commitBehavior.minFilesForCommit.getD 1 ≤ files.length →
      files.length ≤ cfg.commitBehavior.maxFilesPerCommit.getD 50 →
      should_commit parse cfg currentTime files = true) := by
  refine ⟨?_, ?_, ?_, ?_⟩
  · intro hle
    rw [hq]
    simp [is_quiet_hours, hps, hpe, if_pos hle]
  · intro hlt
    rw [hq]
    simp [is_quiet_hours, hps, hpe, if_neg (Nat.not_le.mpr hlt)]
  · intro hquiet
    simp [should_commit, hquiet]
  · intro hquiet hmin hmax
    simp only [should_commit, hquiet, if_false, Bool.false_eq_true]
    split
    · omega
    · split
      · omega
      · rfl

/-- C3 witness: the 22:00-06:00 window (1320 and 360 minutes past
midnight): 23:30 (= 1410) and 02:00 (= 120) are rejected, noon (= 720) is
accepted with a one-file change set. -/
theorem quiet_hours_window_gate_witness :
    should_commit parseClock cfgQuiet 1410 ["a.py"] = false ∧
    should_commit parseClock cfgQuiet 120 ["a.py"] = false ∧
    should_commit parseClock cfgQuiet 720 ["a.py"] = true := by
  refine ⟨?_, ?_, ?_⟩
  · exact (quiet_hours_window_gate parseClock cfgQuiet 1410 "22:00" "06:00"
      1320 360 ["a.py"] rfl rfl rfl).2.2.1 (by decide)
  · exact (quiet_hours_window_gate parseClock cfgQuiet 120 "22:00" "06:00"
      1320 360 ["a.py"] rfl rfl rfl).2.2.1 (by decide)
  · exact (quiet_hours_window_gate parseClock cfgQuiet 720 "22:00" "06:00"
      1320 360 ["a.py"] rfl rfl rfl).2.2.2 (by decide) (by decide) (by decide)

/-- C4: a changed-file count below `min_files_for_commit` (default 1) or
above `max_files_per_commit` (default 50) makes `_should_commit` return
`False` at every current time; the rejection is an ordinary `False` return
(a policy skip), not an exception. -/
theorem size_thresholds_reject (parse : String → Option Nat) (cfg : Config)
    (currentTime : Nat) (files : List String)
    (h : files.length < cfg.commitBehavior.minFilesForCommit.getD 1 ∨
         files.length > cfg.commitBehavior.maxFilesPerCommit.getD 50) :
    should_commit parse cfg currentTime files = false := by
  simp only [should_commit]
  split
  · rfl
  · split
    · rfl
    · split
      · rfl
      · exfalso; omega

/-- C4 witness: the empty change set under the default thresholds is
rejected (0 < 1), at an arbitrary time and with a parser that always
fails. -/
theorem size_thresholds_reject_witness :
    should_commit parse0 cfg0 0 ([] : List String) = false :=
  size_thresholds_reject parse0 cfg0 0 [] (Or.inl (by decide))

/-- C10: a missing `quiet_hours` mapping, a missing `start` or `end` key, or
a `start`/`end` value the ISO time parser rejects makes `_is_quiet_hours`
return `False` at every current time — malformed quiet-hours configuration
silently disables the gate (fail-open) instead of raising or blocking. -/
theorem quiet_hours_fail_open (parse : String → Option Nat)
    (qc : Option QuietRaw) (currentTime : Nat)
    (h : qc = none ∨ ∃ q, qc = some q ∧
          (q.startStr = none ∨
           (∃ s, q.startStr = some s ∧ parse s = none) ∨
           q.endStr = none ∨
           (∃ e, q.endStr = some e ∧ parse e = none))) :
    is_quiet_hours parse qc currentTime = false := by
  rcases h with h | ⟨q, hq, hcase⟩
  · subst h; rfl
  · subst hq
    rcases hcase with h1 | ⟨s, hs, hps⟩ | h3 | ⟨e, he, hpe⟩
    · simp [is_quiet_hours, h1]
    · simp [is_quiet_hours, hs, hps]
    · cases hst : q.startStr with
      | none => simp [is_quiet_hours, hst]
      | some s =>
        cases hp : parse s with
        | none => simp [is_quiet_hours, hst, hp]
        | some qs => simp [is_quiet_hours, hst, hp, h3]
    · cases hst : q.startStr with
      | none => simp [is_quiet_hours, hst]
      | some s =>
        cases hp : parse s with
        | none => simp [is_quiet_hours, hst, hp]
        | some qs => simp [is_quiet_hours, hst, hp, he, hpe]

/-- C10 witness: an absent quiet-hours mapping, and a present one whose
start string the parser rejects, both leave the gate open (here at 23:30
inside the nominal window). -/
theorem quiet_hours_fail_open_witness :
    is_quiet_hours parse0 none 1410 = false ∧
    is_quiet_hours parse0
      (some { startStr := some "22:00", endStr := some "06:00" }) 1410 = false := by
  constructor
  · exact quiet_hours_fail_open parse0 none 1410 (Or.inl rfl)
  · exact quiet_hours_fail_open parse0
      (some { startStr := some "22:00", endStr := some "06:00" }) 1410
      (Or.inr ⟨_, rfl, Or.inr (Or.inl ⟨"22:00", rfl, rfl⟩)⟩)

theorem stageCommitPush_pull_gitError (g : MsgGen) (env : RepoEnv)
    (logs0 : List LogMsg) (hstage : env.stageOk = true)
    (hcommit : env.commitOk = true) (hremote : env.remoteLookup = true)
    (hpull : env.pullResult = .gitError) :
    (stageCommitPush g env logs0).result = (env.pushResult == .ok) ∧
    GitEffect.push ∈ (stageCommitPush g env logs0).effects ∧
    LogMsg.pullFailedWarning ∈ (stageCommitPush g env logs0).logs := by
  cases hpush : env.pushResult <;>
    simp [stageCommitPush, hstage, hcommit, hremote, hpull, hpush]

/-- C5: once the attempt reaches the remote exchange (changes present,
gates passed, scan disabled or clean, stage and commit succeeded, remote
resolved), a pull that fails with a GitCommandError is logged as a warning
and the push is still invoked; the attempt's boolean result is exactly the
push outcome — `True` iff the push succeeded — so the pull failure alone
never aborts the attempt. -/
theorem pull_failure_push_still_attempted (cfg : Config) (sc : Scanner)
    (g : MsgGen) (parse : String → Option Nat) (env : RepoEnv)
    (hdirty : env.isDirty = true)
    (hgate : should_commit parse cfg env.currentTime env.changedFiles = true)
    (hsafe : cfg.scanForSecrets.getD true = false ∨
             (is_safe_to_commit sc env.fs env.changedFiles).1 = true)
    (hstage : env.stageOk = true) (hcommit : env.commitOk = true)
    (hremote : env.remoteLookup = true)
    (hpull : env.pullResult = .gitError) :
    (attempt_commit cfg sc g parse env).result = (env.pushResult == .ok) ∧
    GitEffect.push ∈ (attempt_commit cfg sc g parse env).effects ∧
    LogMsg.pullFailedWarning ∈ (attempt_commit cfg sc g parse env).logs := by
  by_cases hg : cfg.scanForSecrets.getD true = true
  · rcases hsafe with h | h
    · rw [hg] at h; exact absurd h (by simp)
    · have hred : attempt_commit cfg sc g parse env =
          stageCommitPush g env
            (if (is_safe_to_commit sc env.fs env.changedFiles).2.isEmpty then []
             else
               LogMsg.securityWarnings
                   (is_safe_to_commit sc env.fs env.changedFiles).2.length ::
                 (is_safe_to_commit sc env.fs env.changedFiles).2.map
                   (fun v => LogMsg.securityWarningDetail v.file v.vtype)) := by
        simp [attempt_commit, hdirty, hgate, hg, h]
      rw [hred]
      exact stageCommitPush_pull_gitError g env _ hstage hcommit hremote hpull
  · have hg2 : cfg.scanForSecrets.getD true = false := by
      cases hv : cfg.scanForSecrets.getD true
      · rfl
      · exact absurd hv hg
    have hred : attempt_commit cfg sc g parse env = stageCommitPush g env [] := by
      simp [attempt_commit, hdirty, hgate, hg2]
    rw [hred]
    exact stageCommitPush_pull_gitError g env [] hstage hcommit hremote hpull

/-- C5 witness: the all-successful single-file environment with the pull
failing: the push is still invoked, the warning is logged, and the result is
`True` because the push succeeds. -/
theorem pull_failure_push_still_attempted_witness :
    (attempt_commit cfgNoScan sc0 g0 parse0 envPullFail).result = true ∧
    GitEffect.push ∈ (attempt_commit cfgNoScan sc0 g0 parse0 envPullFail).effects ∧
    LogMsg.pullFailedWarning ∈
      (attempt_commit cfgNoScan sc0 g0 parse0 envPullFail).logs := by
  have h := pull_failure_push_still_attempted cfgNoScan sc0 g0 parse0 envPullFail
    rfl (by decide) (Or.inl rfl) rfl rfl rfl rfl
  exact ⟨by rw [h.1]; rfl, h.2.1, h.2.2⟩

/-- C6 counterexample: with the AI backend disabled, the three-file change
set yields the emoji-suffixed template "auto: update 3 files 🚀", not the
exact string "auto: update 3 files" the claim states. -/
theorem template_message_exact_string_cex :
    generate_commit_message g0 ["a.py", "b.py", "c.py"] "" =
      "auto: update 3 files 🚀" ∧
    generate_commit_message g0 ["a.py", "b.py", "c.py"] "" ≠
      "auto: update 3 files" := by
  constructor <;> decide

/-- C6 amended: with the AI backend disabled, a one-element change set
yields exactly "auto: update <basename>", and an N-element set with N ≠ 1
yields exactly "auto: update <N> files 🚀" (the source template ends with a
space and a rocket emoji). -/
theorem template_message_fallback (g : MsgGen) (files : List String)
    (d : String) (hai : g.aiEnabled = false) :
    (∀ f, files = [f] →
      generate_commit_message g files d = "auto: update " ++ pathName f) ∧
    (files.length ≠ 1 →
      generate_commit_message g files d =
        "auto: update " ++ toString files.length ++ " files 🚀") := by
  constructor
  · intro f hf
    subst hf
    simp [generate_commit_message, hai, generate_template_message]
  · intro hn
    cases files with
    | nil => simp [generate_commit_message, hai, generate_template_message]
    | cons a t =>
      cases t with
      | nil => simp at hn
      | cons b t2 =>
        simp [generate_commit_message, hai, generate_template_message]

/-- C6 witness: ["foo.py"] gives exactly "auto: update foo.py" and the
three-file list gives exactly "auto: update 3 files 🚀". -/
theorem template_message_fallback_witness :
    generate_commit_message g0 ["foo.py"] "" = "auto: update foo.py" ∧
    generate_commit_message g0 ["a.py", "b.py", "c.py"] "" =
      "auto: update 3 files 🚀" := by
  constructor
  · have h := (template_message_fallback g0 ["foo.py"] "" rfl).1 "foo.py" rfl
    rw [h]; decide
  · have h := (template_message_fallback g0 ["a.py", "b.py", "c.py"] "" rfl).2
      (by decide)
    rw [h]; decide

theorem stageCommitPush_true_pushed (g : MsgGen) (env : RepoEnv)
    (logs0 : List LogMsg) :
    (stageCommitPush g env logs0).result = true →
    env.pushResult = .ok ∧
    GitEffect.push ∈ (stageCommitPush g env logs0).effects := by
  cases h1 : env.stageOk <;> cases h2 : env.commitOk <;>
    cases h3 : env.remoteLookup <;> cases h4 : env.pullResult <;>
      cases h5 : env.pushResult <;>
        simp [stageCommitPush, h1, h2, h3, h4, h5]

theorem attempt_true_implies_pushed (cfg : Config) (sc : Scanner) (g : MsgGen)
    (parse : String → Option Nat) (env : RepoEnv) :
    (attempt_commit cfg sc g parse env).result = true →
    env.pushResult = .ok ∧
    GitEffect.push ∈ (attempt_commit cfg sc g parse env).effects := by
  unfold attempt_commit
  cases hd : env.isDirty
  · simp
  · cases hsc : should_commit parse cfg env.currentTime env.changedFiles
    · simp
    · cases hg : cfg.scanForSecrets.getD true
      · simpa using stageCommitPush_true_pushed g env []
      · cases hs : (is_safe_to_commit sc env.fs env.changedFiles).1
        · simp [hs]
        · simpa [hs] using stageCommitPush_true_pushed g env _

/-- C7 counterexample: with startup succeeding and every git operation but
the push succeeding, the single `--once` attempt creates the local commit
(the commit operation is in the trace) yet the process exits with code 1,
so "exit code 0 if a commit was made" fails as stated. -/
theorem run_once_commit_made_exit_one_cex :
    GitEffect.commit "auto: update a.py" ∈
      (attempt_commit cfgNoScan sc0 g0 parse0 envPushFail).effects ∧
    run_once .ok cfgNoScan sc0 g0 parse0 envPushFail = (1, 1) := by
  constructor <;> decide

/-- C7 amended: when startup succeeds, `--once` performs exactly one
`attempt_commit` call and exits with code 0 iff that call returned `True`,
i.e. iff the commit was created and its push succeeded; a commit that is
created locally but whose push fails exits with code 1. -/
theorem run_once_exit_code (cfg : Config) (sc : Scanner) (g : MsgGen)
    (parse : String → Option Nat) (env : RepoEnv) :
    (run_once .ok cfg sc g parse env).1 = 1 ∧
    ((run_once .ok cfg sc g parse env).2 = 0 ↔
      (attempt_commit cfg sc g parse env).result = true) ∧
    ((run_once .ok cfg sc g parse env).2 = 0 →
      env.pushResult = .ok ∧
      GitEffect.push ∈ (attempt_commit cfg sc g parse env).effects) := by
  have hiff : (run_once .ok cfg sc g parse env).2 = 0 ↔
      (attempt_commit cfg sc g parse env).result = true := by
    simp only [run_once]
    cases h : (attempt_commit cfg sc g parse env).result <;> simp
  exact ⟨rfl, hiff,
    fun h0 => attempt_true_implies_pushed cfg sc g parse env (hiff.mp h0)⟩

/-- C7 witness: the fully successful environment exits with code 0 after
one attempt, and the push is indeed in the trace. -/
theorem run_once_exit_code_witness :
    run_once .ok cfgNoScan sc0 g0 parse0 envBase = (1, 0) ∧
    GitEffect.push ∈ (attempt_commit cfgNoScan sc0 g0 parse0 envBase).effects := by
  have h := run_once_exit_code cfgNoScan sc0 g0 parse0 envBase
  have h0 : (run_once .ok cfgNoScan sc0 g0 parse0 envBase).2 = 0 :=
    h.2.1.mpr (by decide)
  exact ⟨by rw [Prod.ext_iff]; exact ⟨h.1, h0⟩, (h.2.2 h0).2⟩

/-- C8 counterexample: a 60-character match is recorded as its first 50
characters with "..." appended — a 53-character string, not the match
truncated to 50 characters. -/
theorem secret_match_truncation_cex :
    ((scanOneFile scLong fs0 "cfg.txt").map
        (fun v => (v.severity, (v.matchText.getD "").length))) =
      [("medium", 53)] ∧
    (scanOneFile scLong fs0 "cfg.txt").map (fun v => v.matchText) ≠
      [some (strTake longSecret 50)] := by
  constructor <;> decide

/-- C8 amended: every match of a configured secret pattern in a scanned
text file (no blocked extension, not binary, readable) is reported as a
violation of severity "medium" whose recorded matched text is the match
itself when it has at most 50 characters, and otherwise its first 50
characters with "..." appended (so up to 53 recorded characters). -/
theorem secret_match_reported (sc : Scanner) (fs : String → FileEntry)
    (paths : List String) (p content : String) (pat : SecretPattern)
    (m : String) (hp : p ∈ paths)
    (hblock : sc.blockedExtensions.any (fun ext => strEndsWith p ext) = false)
    (hbin : is_binary_file (fs p) = false)
    (htext : (fs p).text = some content)
    (hpat : pat ∈ sc.secretPatterns) (hm : m ∈ pat.findall content) :
    ({ file := p, vtype := "potential_secret", severity := "medium",
       patternName := some pat.source,
       matchText := some (if m.length > 50 then strTake m 50 ++ "..." else m) }
        : Violation)
      ∈ scan_for_secrets sc fs paths := by
  apply mem_scan_of_mem_scanOneFile hp
  simp only [scanOneFile, hblock, hbin, htext, truncMatch, Bool.false_eq_true,
    if_false, List.mem_flatMap]
  exact ⟨pat, hpat, List.mem_map.mpr ⟨m, hm, by simp [truncMatch]⟩⟩

/-- C8 witness: the short secret "hunter2" matched in the readable text
file "cfg.txt" is reported with severity "medium" and recorded in full. -/
theorem secret_match_reported_witness :
    ({ file := "cfg.txt", vtype := "potential_secret", severity := "medium",
       patternName := some "pw", matchText := some "hunter2" } : Violation)
      ∈ scan_for_secrets scPw fs0 ["cfg.txt"] := by
  have h := secret_match_reported scPw fs0 ["cfg.txt"] "cfg.txt" "hi" patPw
    "hunter2" (by decide) (by decide) (by decide) rfl
    (List.mem_singleton.mpr rfl) (by decide)
  have he : (if ("hunter2" : String).length > 50
      then strTake "hunter2" 50 ++ "..." else ("hunter2" : String)) = "hunter2" := by
    decide
  rw [he] at h
  exact h

theorem runPostCommitChain_append (l1 l2 : List Plugin) (c : CommitRecord) :
    runPostCommitChain (l1 ++ l2) c =
      runPostCommitChain l2 (runPostCommitChain l1 c) := by
  simp [runPostCommitChain, List.foldl_append]

theorem runPostCommitChain_cons (pl : Plugin) (l : List Plugin)
    (c : CommitRecord) :
    runPostCommitChain (pl :: l) c =
      runPostCommitChain l (applyPostCommitHook pl c) := rfl

/-- C9: over every configured plugin chain — arbitrary plugins `l1` before
the always-raising plugin, `l2` between it and the well-behaved plugin, and
`l3` after — the post_commit chain catches the raising plugin's exception,
leaves the current commit unchanged there, and the later well-behaved
plugin still runs and applies its amendment `f` to whatever commit reaches
it. Moreover every hook invocation of every stage is wrapped individually:
in the pre_commit, on_push and on_error stages a plugin that raises only
contributes its exception to the stage's caught-exception log, the
surrounding plugins' invocations are unaffected, and the stages (like the
post_commit chain) return plain values, so no exception raised inside any
plugin hook propagates out of the hook pipeline. -/
theorem hook_fault_isolation (l1 l2 l3 : List Plugin) (pBad pGood : Plugin)
    (c cp : CommitRecord) (changedFiles : List String) (msg e : String)
    (f : CommitRecord → CommitRecord)
    (hbadPre : ∀ files, pBad.preCommitHook files = .error e)
    (hbadPost : ∀ x, pBad.postCommitHook x = .raised e)
    (hbadPush : ∀ x, pBad.onPushHook x = .error e)
    (hbadErr : ∀ s, pBad.onErrorHook s = .error e)
    (hgood : ∀ x, pGood.postCommitHook x = .amended (f x)) :
    runPostCommitChain (l1 ++ pBad :: l2 ++ pGood :: l3) c =
      runPostCommitChain l3
        (f (runPostCommitChain l2 (runPostCommitChain l1 c))) ∧
    runPreCommitHooks (l1 ++ pBad :: l2) changedFiles =
      runPreCommitHooks l1 changedFiles ++
        e :: runPreCommitHooks l2 changedFiles ∧
    runOnPushHooks (l1 ++ pBad :: l2) cp =
      runOnPushHooks l1 cp ++ e :: runOnPushHooks l2 cp ∧
    runOnErrorHooks (l1 ++ pBad :: l2) msg =
      runOnErrorHooks l1 msg ++ e :: runOnErrorHooks l2 msg := by
  have hstepBad : ∀ x, applyPostCommitHook pBad x = x := fun x => by
    simp [applyPostCommitHook, hbadPost]
  have hstepGood : ∀ x, applyPostCommitHook pGood x = f x := fun x => by
    simp [applyPostCommitHook, hgood]
  refine ⟨?_, ?_, ?_, ?_⟩
  · rw [runPostCommitChain_append, runPostCommitChain_cons, hstepGood,
        runPostCommitChain_append, runPostCommitChain_cons, hstepBad]
  · simp [runPreCommitHooks, hbadPre]
  · simp [runOnPushHooks, hbadPush]
  · simp [runOnErrorHooks, hbadErr]

/-- C9 witness: in the five-plugin chain with well-behaved plugins around
the always-raising one, the karma-appending plugin still amends the
message, and in each of the other three stages the raising plugin's
exception is merely caught while the surrounding plugins run normally. -/
theorem hook_fault_isolation_witness :
    runPostCommitChain [pNoop, pBad0, pNoop, pGood0, pNoop]
      { message := "m" } = { message := "m [karma]" } ∧
    runPreCommitHooks [pNoop, pBad0, pNoop] ["a.py"] = ["boom"] ∧
    runOnPushHooks [pNoop, pBad0, pNoop] { message := "m" } = ["boom"] ∧
    runOnErrorHooks [pNoop, pBad0, pNoop] "err" = ["boom"] := by
  have h := hook_fault_isolation [pNoop] [pNoop] [pNoop] pBad0 pGood0
    { message := "m" } { message := "m" } ["a.py"] "err" "boom"
    (fun x => { message := x.message ++ " [karma]" })
    (fun _ => rfl) (fun _ => rfl) (fun _ => rfl) (fun _ => rfl) (fun _ => rfl)
  obtain ⟨h1, h2, h3, h4⟩ := h
  simp only [List.cons_append, List.nil_append] at h1 h2 h3 h4
  refine ⟨?_, ?_, ?_, ?_⟩
  · rw [h1]; decide
  · rw [h2]; decide
  · rw [h3]; decide
  · rw [h4]; decide

end AutoCommitter
